import Mathlib

set_option maxHeartbeats 1000000

/-!
Shallow embedding of `src/watcher.py` from the `truck-load-watch` repository.

The watcher polls a market page, extracts offer rows, filters them against
operator-configured rules, accepts at most a daily threshold of loads, and
persists each accepted load.  Strings are modelled as Lean `String`s, Python
exceptions as an explicit `CErr`-valued `Except`, timestamps as seconds since
the epoch (`Nat`), and the Mongo collections as fields of a `Store` record.
All definitions are executable structural recursions so that concrete runs
evaluate by `decide`/`rfl`.
-/

/-- ASCII case folding of a character to a numeric key, mirroring Python
`str.lower` on the ASCII range used by the watcher's rule patterns. -/
def lowerN (c : Char) : Nat :=
  if 65 ≤ c.toNat ∧ c.toNat ≤ 90 then c.toNat + 32 else c.toNat

/-- ASCII digit test, mirroring the regex class `\d` on the inputs involved. -/
def isDigitCh (c : Char) : Bool :=
  decide (48 ≤ c.toNat) && decide (c.toNat ≤ 57)

/-- Numeric value of a digit string (as produced by `int(...)` on a match). -/
def digitsToNat (ds : List Char) : Nat :=
  ds.foldl (fun acc c => acc * 10 + (c.toNat - 48)) 0

/-- Substring test on lists: does `needle` occur contiguously in the second
argument?  Mirrors Python's `in` operator on strings. -/
def subStrB (needle : List Nat) : List Nat → Bool
  | [] => needle.isEmpty
  | h :: t => needle.isPrefixOf (h :: t) || subStrB needle t

/-- Case-folded character codes of a string. -/
def lowerKey (s : String) : List Nat := s.toList.map lowerN

/-- `pat.lower() in s.lower()` from the rule check in `check_loads`. -/
def ciSub (pat s : String) : Bool := subStrB (lowerKey pat) (lowerKey s)

/-- Find the first occurrence of `sep` in a character list; return the part
before it and the part after it. -/
def breakOnSep (sep : List Char) : List Char → Option (List Char × List Char)
  | [] => none
  | c :: rest =>
    if sep.isPrefixOf (c :: rest) then some ([], List.drop sep.length (c :: rest))
    else
      match breakOnSep sep rest with
      | none => none
      | some (pre, post) => some (c :: pre, post)

/-- Fuelled splitting used to model Python's `str.split(sep)` for a non-empty
separator; the fuel `(length + 1)` always suffices. -/
def pySplitFuel (sep : List Char) : Nat → List Char → List (List Char)
  | 0, s => [s]
  | Nat.succ f, s =>
    match breakOnSep sep s with
    | none => [s]
    | some (pre, post) => pre :: pySplitFuel sep f post

/-- Python `s.split(sep)` for the non-empty separators " P:" and " D:". -/
def pySplit (s sep : String) : List String :=
  (pySplitFuel sep.toList (s.toList.length + 1) s.toList).map (fun cs => ⟨cs⟩)

/-- `re.search` of `WEIGHT_RE = (\d+) lbs` over a character list: at each
position, a maximal digit run must be followed by the literal " lbs". -/
def weightSearchAux : List Char → Option Nat
  | [] => none
  | c :: rest =>
    if isDigitCh c then
      if (" lbs".toList).isPrefixOf (List.dropWhile isDigitCh (c :: rest)) then
        some (digitsToNat (List.takeWhile isDigitCh (c :: rest)))
      else weightSearchAux rest
    else weightSearchAux rest

/-- `int(re.search(WEIGHT_RE, text).group(1))` when the pattern `(\d+) lbs`
matches; `none` models the `AttributeError` path where `search` returns
`None`. -/
def weightSearch (s : String) : Option Nat := weightSearchAux s.toList

/-- Whitespace class `\s` of the spec's regex. -/
def isSpaceCh (c : Char) : Bool :=
  c == ' ' || c == '\t' || c == '\n' || c == '\r' || c == '\x0b' || c == '\x0c'

/-- Modelled from the spec: the weight pattern the specification claims,
`(\d+)\s*lbs` — digits, then arbitrary whitespace, then "lbs".  Kept separate
from `weightSearch` (which embeds the source pattern `(\d+) lbs`) so the two
can be compared. -/
def weightSearchSpecAux : List Char → Option Nat
  | [] => none
  | c :: rest =>
    if isDigitCh c then
      if ("lbs".toList).isPrefixOf
          (List.dropWhile isSpaceCh (List.dropWhile isDigitCh (c :: rest))) then
        some (digitsToNat (List.takeWhile isDigitCh (c :: rest)))
      else weightSearchSpecAux rest
    else weightSearchSpecAux rest

/-- Modelled from the spec: `re.search` with the spec's pattern. -/
def weightSearchSpec (s : String) : Option Nat := weightSearchSpecAux s.toList

/-- Python `int(s)` on the dedup key cell: succeeds on a non-empty digit
string, otherwise raises `ValueError`. -/
def pyIntNat (s : String) : Option Nat :=
  match s.toList with
  | [] => none
  | c :: cs => if (c :: cs).all isDigitCh then some (digitsToNat (c :: cs)) else none

/-- Python exceptions that the watcher can raise (none are caught). -/
inductive CErr where
  /-- `TypeError`: subscripting a missing (None) settings document. -/
  | typeErr
  /-- `IndexError`: list index out of range. -/
  | indexErr
  /-- `ValueError`: `int()` on a non-numeric cell. -/
  | valueErr
  /-- `AttributeError`: `.group` on a failed regex search. -/
  | attrErr
deriving Repr, DecidableEq

/-- Python `l[i]`, raising `IndexError` out of range. -/
def listIdx (l : List String) (i : Nat) : Except CErr String :=
  match l[i]? with
  | none => Except.error CErr.indexErr
  | some v => Except.ok v

/-- One document of the `loads` collection, as inserted by `check_loads`. -/
structure LoadRec where
  dsm : Nat
  action_id : String
  origin_loc : String
  origin_dt : String
  dest_loc : String
  dest_dt : String
  consignee : String
  weight : Nat
  exc_ship_mode : String
  status : String
  dt : Nat
deriving Repr, DecidableEq

/-- The `{"key": "logic"}` settings document (matching rules). -/
structure Rules where
  destinations : List String
  consignees : List String
  ship_modes : List String
deriving Repr, DecidableEq

/-- The `{"key": "cookies"}` cache document. -/
structure CacheDoc where
  cookies : List (String × String)
  dt : Nat
deriving Repr, DecidableEq

/-- The Mongo database as seen by the watcher: the cookie cache, the
status/threshold/logic settings documents, and the `loads` collection. -/
structure Store where
  cacheDoc : Option CacheDoc
  statusDoc : Option Bool
  thresholdDoc : Option Int
  logicDoc : Option Rules
  loads : List LoadRec
deriving Repr, DecidableEq

/-- The in-memory `requests` session cookie jar `S.cookies`. -/
def SessionState := List (String × String)
deriving Repr, DecidableEq

/-- Set-or-replace one cookie in a jar. -/
def setCookie (cs : List (String × String)) (kv : String × String) :
    List (String × String) :=
  if cs.any (fun p => p.1 == kv.1) then
    cs.map (fun p => if p.1 == kv.1 then kv else p)
  else cs ++ [kv]

/-- Merge new cookies into a jar, as `requests` does on a response and as
`S.cookies.update` does on the cached dict. -/
def cookieUpdate (cs new : List (String × String)) : List (String × String) :=
  new.foldl setCookie cs

/-- Result of `check_session`: the new jar, the new store, and how many login
requests were issued. -/
structure SessOut where
  sess : SessionState
  store : Store
  logins : Nat
deriving Repr, DecidableEq

/-- `login()`: POST the credentials (the response grants `grant` cookies into
the jar) and upsert the cookie cache with a fresh timestamp. -/
def loginFn (now : Nat) (grant : List (String × String)) (sess : SessionState)
    (s : Store) : SessOut :=
  let sess' := cookieUpdate sess grant
  ⟨sess', { s with cacheDoc := some ⟨sess', now⟩ }, 1⟩

/-- `check_session()`: log in if the cache document is absent or more than an
hour old; otherwise reuse it, loading the cached cookies into the jar only
when the jar is empty. -/
def check_session (now : Nat) (grant : List (String × String))
    (sess : SessionState) (s : Store) : SessOut :=
  match s.cacheDoc with
  | none => loginFn now grant sess s
  | some c =>
    if 3600 < now - c.dt then loginFn now grant sess s
    else if (sess : List (String × String)).isEmpty then ⟨c.cookies, s, 0⟩
    else ⟨sess, s, 0⟩

/-- A row after the weight-parsing pass: the raw cells plus the parsed weight
that Python writes back into `entry[5]`. -/
structure PRow where
  cells : List String
  weight : Nat
deriving Repr, DecidableEq

/-- `re.search(WEIGHT_RE, entry[5])` followed by `.group(1)`: `IndexError` if
the row has no sixth cell, `AttributeError` if the pattern does not match. -/
def rowWeight (row : List String) : Except CErr Nat :=
  match listIdx row 5 with
  | Except.error e => Except.error e
  | Except.ok c5 =>
    match weightSearch c5 with
    | none => Except.error CErr.attrErr
    | some w => Except.ok w

/-- The weight-parsing pass over all extracted rows (the first `for entry in
data:` loop); the first failing row aborts the cycle. -/
def parsePhase : List (List String) → Except CErr (List PRow)
  | [] => Except.ok []
  | r :: rs =>
    match rowWeight r with
    | Except.error e => Except.error e
    | Except.ok w =>
      match parsePhase rs with
      | Except.error e => Except.error e
      | Except.ok ps => Except.ok (⟨r, w⟩ :: ps)

/-- Stable insertion into a weight-sorted list. -/
def insertRow (a : PRow) : List PRow → List PRow
  | [] => [a]
  | b :: l => if a.weight ≤ b.weight then a :: b :: l else b :: insertRow a l

/-- `sorted(data, key=lambda x: x[5])`: stable ascending sort by weight. -/
def sortRows : List PRow → List PRow
  | [] => []
  | a :: l => insertRow a (sortRows l)

/-- The mutable state of the selection loop: the live `loads` collection,
the `new_loads` counter, the collected `action_ids`, and the dsms appended to
the notification text. -/
structure SelState where
  loads : List LoadRec
  newLoads : Nat
  action_ids : List String
  msgs : List Nat
deriving Repr, DecidableEq

/-- `db.loads.find_one({"dsm": dsm})` as a Boolean presence test. -/
def hasDsm (loads : List LoadRec) (d : Nat) : Bool :=
  loads.any (fun l => l.dsm == d)

/-- The per-row fields read after the dedup check, in Python's order. -/
structure Fields where
  origin_loc : String
  origin_dt : String
  dest_loc : String
  dest_dt : String
  consignee : String
  exc_ship_mode : String
  action_id : String
deriving Repr, DecidableEq

/-- The field reads of lines 238–248: split origin on " P:" and dest on
" D:", then index cells 4, 6 and 8; any missing index raises. -/
def readFields (e : PRow) : Except CErr Fields :=
  match listIdx e.cells 1 with
  | Except.error er => Except.error er
  | Except.ok c1 =>
  match listIdx e.cells 2 with
  | Except.error er => Except.error er
  | Except.ok c2 =>
  match listIdx (pySplit c1 " P:") 0 with
  | Except.error er => Except.error er
  | Except.ok origin_loc =>
  match listIdx (pySplit c1 " P:") 1 with
  | Except.error er => Except.error er
  | Except.ok origin_dt =>
  match listIdx (pySplit c2 " D:") 0 with
  | Except.error er => Except.error er
  | Except.ok dest_loc =>
  match listIdx (pySplit c2 " D:") 1 with
  | Except.error er => Except.error er
  | Except.ok dest_dt =>
  match listIdx e.cells 4 with
  | Except.error er => Except.error er
  | Except.ok consignee =>
  match listIdx e.cells 6 with
  | Except.error er => Except.error er
  | Except.ok exc_ship_mode =>
  match listIdx e.cells 8 with
  | Except.error er => Except.error er
  | Except.ok action_id =>
    Except.ok ⟨origin_loc, origin_dt, dest_loc, dest_dt, consignee,
      exc_ship_mode, action_id⟩

/-- The three-way `any`/`and` rule check of lines 250–263. -/
def rulesMatch (logic : Rules) (dest_loc consignee exc_ship_mode : String) : Bool :=
  logic.destinations.any (fun d => ciSub d dest_loc) &&
  logic.consignees.any (fun c => ciSub c consignee) &&
  logic.ship_modes.any (fun s => ciSub s exc_ship_mode)

/-- The document inserted into `db.loads` for a selected offer. -/
def mkLoadRec (dsm : Nat) (f : Fields) (w : Nat) (now : Nat) : LoadRec :=
  ⟨dsm, f.action_id, f.origin_loc, f.origin_dt, f.dest_loc, f.dest_dt,
    f.consignee, w, f.exc_ship_mode, "accept", now⟩

/-- Selecting one offer: bump `new_loads`, remember its action id, append it
to the notification text, and insert its `loads` document. -/
def selectEntry (st : SelState) (dsm : Nat) (f : Fields) (w : Nat) (now : Nat) :
    SelState :=
  { loads := st.loads ++ [mkLoadRec dsm f w now],
    newLoads := st.newLoads + 1,
    action_ids := st.action_ids ++ [f.action_id],
    msgs := st.msgs ++ [dsm] }

/-- One iteration of the selection loop (lines 235–296): parse the dedup key,
skip already-persisted dsms, read the remaining cells, subscript the logic
document, evaluate the rule check, and select the offer while `new_loads`
is strictly below `remaining_loads`. -/
def processEntry (logicOpt : Option Rules) (remaining : Int) (now : Nat)
    (st : SelState) (e : PRow) : Except CErr SelState :=
  match listIdx e.cells 0 with
  | Except.error er => Except.error er
  | Except.ok c0 =>
    match pyIntNat c0 with
    | none => Except.error CErr.valueErr
    | some dsm =>
      if hasDsm st.loads dsm then Except.ok st
      else
        match readFields e with
        | Except.error er => Except.error er
        | Except.ok f =>
          match logicOpt with
          | none => Except.error CErr.typeErr
          | some logic =>
            if rulesMatch logic f.dest_loc f.consignee f.exc_ship_mode then
              if (st.newLoads : Int) < remaining then
                Except.ok (selectEntry st dsm f e.weight now)
              else Except.ok st
            else Except.ok st

/-- The selection loop over the sorted rows.  An exception aborts the loop
but the documents already inserted stay in the store, so the state reached so
far is returned alongside the error. -/
def selLoop (logicOpt : Option Rules) (remaining : Int) (now : Nat) :
    List PRow → SelState → SelState × Option CErr
  | [], st => (st, none)
  | e :: rest, st =>
    match processEntry logicOpt remaining now st e with
    | Except.error er => (st, some er)
    | Except.ok st' => selLoop logicOpt remaining now rest st'

/-- Count of `loads` documents with `status == "accept"` and `dt >= today`,
the query of `check_accepted_load_threshold`. -/
def countGe (today : Nat) (loads : List LoadRec) : Nat :=
  (loads.filter (fun l => l.status == "accept" && decide (today ≤ l.dt))).length

/-- Count of accepted documents whose `dt` falls within the UTC calendar day
starting at `today` — the quantity the specification's quota invariant
speaks about. -/
def countDay (today : Nat) (loads : List LoadRec) : Nat :=
  (loads.filter (fun l =>
    l.status == "accept" && decide (today ≤ l.dt) &&
      decide (l.dt < today + 86400))).length

/-- `check_accepted_load_threshold()`: `threshold - count`; subscripting a
missing threshold document raises `TypeError`. -/
def check_accepted_load_threshold (today : Nat) (s : Store) : Except CErr Int :=
  match s.thresholdDoc with
  | none => Except.error CErr.typeErr
  | some t => Except.ok (t - (countGe today s.loads : Int))

/-- Wall-clock time in the US/Eastern reference zone, as read by the hours
gate (`datetime.now(tz=...).time()`); only `hour` is inspected. -/
structure PyTime where
  hour : Nat
  minute : Nat
deriving Repr, DecidableEq

/-- Everything one invocation of `check_loads` reads from outside the store:
the Eastern wall clock, the UTC timestamp `now` and its day start `today`,
the cookies a login would be granted, whether the offers fetch succeeds, and
the rows extracted from the fetched document. -/
structure CycleInput where
  time : PyTime
  now : Nat
  today : Nat
  loginCookies : List (String × String)
  fetchOk : Bool
  rows : List (List String)
deriving Repr, DecidableEq

deriving instance DecidableEq for Except

/-- The value `check_loads` returns on each exit path. -/
inductive CycleRes where
  /-- `return "Outside of hours"` -/
  | outsideOfHours
  /-- `return "Disabled"` -/
  | disabled
  /-- `return "Done"` (threshold met) -/
  | done
  /-- early return after a non-success offers fetch -/
  | fetchFailed
  /-- fell off the end of the function (with or without new loads) -/
  | finished
deriving Repr, DecidableEq

/-- Observable outcome of one `check_loads` invocation: the final session
jar and store, the number of login/fetch/accept/notify requests issued, the
action ids merged into the acceptance payload, and the result or the
uncaught exception. -/
structure COut where
  sess : SessionState
  store : Store
  logins : Nat
  fetches : Nat
  submits : Nat
  notifies : Nat
  submittedIds : List String
  res : Except CErr CycleRes
deriving Repr, DecidableEq

/-- The tail of `check_loads` after the selection loop: the documents the
loop inserted are already in the store; an uncaught exception propagates,
otherwise when any loads were selected (`if new_loads and action_ids:`) one
combined acceptance POST and one notification are sent. -/
def finishCycle (sess : SessionState) (s1 : Store) (logins : Nat)
    (stEnd : SelState × Option CErr) : COut :=
  match stEnd.2 with
  | some er =>
    ⟨sess, { s1 with loads := stEnd.1.loads }, logins, 1, 0, 0, [],
      Except.error er⟩
  | none =>
    if stEnd.1.newLoads ≠ 0 ∧ ¬ stEnd.1.action_ids.isEmpty then
      ⟨sess, { s1 with loads := stEnd.1.loads }, logins, 1, 1, 1,
        stEnd.1.action_ids, Except.ok CycleRes.finished⟩
    else
      ⟨sess, { s1 with loads := stEnd.1.loads }, logins, 1, 0, 0, [],
        Except.ok CycleRes.finished⟩

/-- The part of `check_loads` after the hours and enablement gates: quota
gate, session check, fetch, weight parsing, sort, selection loop, and the
accept/notify step. -/
def checkLoadsBody (inp : CycleInput) (sess : SessionState) (s : Store) : COut :=
  match check_accepted_load_threshold inp.today s with
  | Except.error er => ⟨sess, s, 0, 0, 0, 0, [], Except.error er⟩
  | Except.ok remaining =>
    if remaining ≤ 0 then ⟨sess, s, 0, 0, 0, 0, [], Except.ok CycleRes.done⟩
    else
      let so := check_session inp.now inp.loginCookies sess s
      if !inp.fetchOk then
        ⟨so.sess, so.store, so.logins, 1, 0, 0, [], Except.ok CycleRes.fetchFailed⟩
      else if inp.rows.isEmpty then
        ⟨so.sess, so.store, so.logins, 1, 0, 0, [], Except.ok CycleRes.finished⟩
      else
        match parsePhase inp.rows with
        | Except.error er =>
          ⟨so.sess, so.store, so.logins, 1, 0, 0, [], Except.error er⟩
        | Except.ok prows =>
          finishCycle so.sess so.store so.logins
            (selLoop so.store.logicDoc remaining inp.now (sortRows prows)
              ⟨so.store.loads, 0, [], []⟩)

/-- `check_loads()`: the full cycle, starting with the hours gate and the
enablement gate (which initializes a missing status document to enabled). -/
def checkLoads (inp : CycleInput) (sess : SessionState) (s : Store) : COut :=
  if inp.time.hour < 6 ∨ 18 < inp.time.hour then
    ⟨sess, s, 0, 0, 0, 0, [], Except.ok CycleRes.outsideOfHours⟩
  else
    match s.statusDoc with
    | some enabled =>
      if enabled then checkLoadsBody inp sess s
      else ⟨sess, s, 0, 0, 0, 0, [], Except.ok CycleRes.disabled⟩
    | none => checkLoadsBody inp sess { s with statusDoc := some true }

/-- Outcome of running the `__main__` loop over a list of scheduled cycle
inputs: how many cycles were started, how many completed, and the uncaught
exception (if any) that terminated the process. -/
structure RunOut where
  sess : SessionState
  store : Store
  attempted : Nat
  completed : Nat
  err : Option CErr
deriving Repr, DecidableEq

/-- The `while True: check_loads(); time.sleep(...)` scheduler loop.  There
is no exception handler around `check_loads()`, so an uncaught exception
terminates the process and no later tick runs. -/
def schedulerRun : List CycleInput → SessionState → Store → RunOut
  | [], sess, s => ⟨sess, s, 0, 0, none⟩
  | i :: is, sess, s =>
    match (checkLoads i sess s).res with
    | Except.error er =>
      ⟨(checkLoads i sess s).sess, (checkLoads i sess s).store, 1, 0, some er⟩
    | Except.ok _ =>
      ⟨(schedulerRun is (checkLoads i sess s).sess (checkLoads i sess s).store).sess,
        (schedulerRun is (checkLoads i sess s).sess (checkLoads i sess s).store).store,
        (schedulerRun is (checkLoads i sess s).sess (checkLoads i sess s).store).attempted + 1,
        (schedulerRun is (checkLoads i sess s).sess (checkLoads i sess s).store).completed + 1,
        (schedulerRun is (checkLoads i sess s).sess (checkLoads i sess s).store).err⟩

/-- Modelled from the spec: "the current time ... falls outside the daily
window 06:00–18:00", read as minutes of the day outside [360, 1080]. -/
def outsideWindowSpec (t : PyTime) : Bool :=
  decide (t.hour * 60 + t.minute < 6 * 60) || decide (18 * 60 < t.hour * 60 + t.minute)

/-- Ascending weight order — the order in which the selection loop walks the
sorted rows. -/
def sortedByWeight (l : List PRow) : Prop :=
  l.Pairwise (fun a b => a.weight ≤ b.weight)

/-- Concrete matching rules used by the concrete runs below. -/
def demoRules : Rules := ⟨["dloc"], ["consig"], ["coil"]⟩

/-- A concrete store: fresh cookie cache, enabled, threshold 2, demo rules,
empty loads history. -/
def demoStore : Store :=
  ⟨some ⟨[("sid", "v")], 1000⟩, some true, some 2, some demoRules, []⟩

/-- A well-formed extracted row with the given id cell, weight cell and
action-id cell. -/
def demoRow (d w a : String) : List String :=
  [d, "OLOC P:01/01", "DLOC D:01/02", "x", "CONSIG", w, "COIL", "y", a]

/-- A concrete cycle input at 10:00 Eastern, `now` = 4000 s into the day
starting at 0, successful fetch, with the given extracted rows. -/
def demoInput (rows : List (List String)) : CycleInput :=
  ⟨⟨10, 0⟩, 4000, 0, [("g", "1")], true, rows⟩

/-- A concrete already-persisted load document with dsm 7. -/
def demoLoadRec : LoadRec :=
  ⟨7, "a", "o", "od", "DLOC", "dd", "CONSIG", 100, "COIL", "accept", 1⟩

/-! ## Helper lemmas -/

theorem subStrB_iff (n : List Nat) :
    ∀ h : List Nat, subStrB n h = true ↔ ∃ pre post, pre ++ n ++ post = h := by
  intro h
  induction h with
  | nil =>
    simp only [subStrB, List.isEmpty_iff]
    constructor
    · rintro rfl; exact ⟨[], [], rfl⟩
    · rintro ⟨pre, post, he⟩
      rcases List.append_eq_nil.mp (List.append_eq_nil.mp he).1 with ⟨-, h2⟩
      exact h2
  | cons a t ih =>
    simp only [subStrB, Bool.or_eq_true, ih, List.isPrefixOf_iff_prefix]
    constructor
    · rintro (⟨post, hpost⟩ | ⟨pre, post, rfl⟩)
      · exact ⟨[], post, by simpa using hpost⟩
      · exact ⟨a :: pre, post, rfl⟩
    · rintro ⟨pre, post, he⟩
      cases pre with
      | nil =>
        left
        exact ⟨post, by simpa using he⟩
      | cons b pre' =>
        right
        simp only [List.cons_append, List.cons.injEq] at he
        exact ⟨pre', post, he.2⟩

theorem ciSub_iff (pat s : String) :
    ciSub pat s = true ↔ ∃ pre post, pre ++ lowerKey pat ++ post = lowerKey s :=
  subStrB_iff (lowerKey pat) (lowerKey s)

/-! ## C3: rule-match semantics -/

/-- C3: for every offer and every `MatchingRules` value, the rule check
succeeds iff all three category conditions hold — some destination pattern is
a case-insensitive substring of the destination location, AND some consignee
pattern of the consignee, AND some ship-mode pattern of the ship mode (the
substring tests spelled out as case-folded contiguous occurrences); in
particular, an empty pattern list in any category makes the check false. -/
theorem rules_match_characterization (r : Rules) (d c m : String) :
    (rulesMatch r d c m = true ↔
      ((∃ p ∈ r.destinations, ∃ pre post, pre ++ lowerKey p ++ post = lowerKey d) ∧
       (∃ p ∈ r.consignees, ∃ pre post, pre ++ lowerKey p ++ post = lowerKey c) ∧
       (∃ p ∈ r.ship_modes, ∃ pre post, pre ++ lowerKey p ++ post = lowerKey m))) ∧
    ((r.destinations = [] ∨ r.consignees = [] ∨ r.ship_modes = []) →
      rulesMatch r d c m = false) := by
  constructor
  · simp only [rulesMatch, Bool.and_eq_true, List.any_eq_true, ciSub_iff, and_assoc]
  · intro hemp
    simp only [rulesMatch, Bool.and_eq_false_iff, Bool.eq_false_iff]
    rcases hemp with he | he | he <;> rw [he] <;> simp [List.any_nil]

/-- Witness for C3 at concrete rules and offer fields. -/
theorem rules_match_characterization_witness :
    rulesMatch ⟨["boro"], ["Coil"], ["truck"]⟩ "GreensBORO NC" "COILPLUS" "TRUCKLOAD" = true ∧
    rulesMatch ⟨[], ["Coil"], ["truck"]⟩ "GreensBORO NC" "COILPLUS" "TRUCKLOAD" = false := by
  constructor
  · exact (rules_match_characterization ⟨["boro"], ["Coil"], ["truck"]⟩
      "GreensBORO NC" "COILPLUS" "TRUCKLOAD").1.mpr
      ⟨⟨"boro", by decide, lowerKey "Greens", lowerKey " NC", by decide⟩,
        ⟨"Coil", by decide, [], lowerKey "PLUS", by decide⟩,
        ⟨"truck", by decide, [], lowerKey "LOAD", by decide⟩⟩
  · exact (rules_match_characterization ⟨[], ["Coil"], ["truck"]⟩
      "GreensBORO NC" "COILPLUS" "TRUCKLOAD").2 (Or.inl rfl)

/-! ## C2: deduplication -/

/-- C2: an offer whose `dsm` already has a document in the `loads` collection
at the start of its evaluation is never selected again, regardless of the
current rules and remaining quota: the selection step leaves the loop state —
persisted loads, action ids to submit, and notification entries — unchanged. -/
theorem dedup_never_reselects (logicOpt : Option Rules) (remaining : Int)
    (now : Nat) (st : SelState) (e : PRow) (c0 : String) (dsm : Nat)
    (h0 : listIdx e.cells 0 = Except.ok c0)
    (hp : pyIntNat c0 = some dsm)
    (hd : hasDsm st.loads dsm = true) :
    processEntry logicOpt remaining now st e = Except.ok st := by
  simp only [processEntry, h0, hp, hd, if_true]

/-- Witness for C2: a concrete already-persisted offer is skipped. -/
theorem dedup_never_reselects_witness :
    processEntry (some ⟨["dloc"], ["consig"], ["coil"]⟩) 5 99
      ⟨[⟨7, "a", "o", "od", "DLOC", "dd", "CONSIG", 100, "COIL", "accept", 1⟩], 0, [], []⟩
      ⟨["7", "OLOC P:01/01", "DLOC D:01/02", "x", "CONSIG", "100 lbs", "COIL", "y", "act7"], 100⟩ =
    Except.ok ⟨[⟨7, "a", "o", "od", "DLOC", "dd", "CONSIG", 100, "COIL", "accept", 1⟩], 0, [], []⟩ :=
  dedup_never_reselects _ 5 99 _ _ "7" 7 (by decide) (by decide) (by decide)

/-! ## C7: session freshness -/

/-- C7: `check_session` performs a login exchange iff the cached cookie
document is absent or more than an hour (3600 s) old; otherwise it reuses the
cache without logging in, copying the cached cookies into the client jar only
when the jar is empty; a stale cache triggers exactly one login which
re-caches the jar with a fresh timestamp; and two calls within the freshness
window perform no login at all. -/
theorem session_reuse_iff (now : Nat) (grant : List (String × String))
    (sess : SessionState) (s : Store) :
    ((check_session now grant sess s).logins = 1 ↔
      (s.cacheDoc = none ∨ ∃ c, s.cacheDoc = some c ∧ 3600 < now - c.dt)) ∧
    (∀ c, s.cacheDoc = some c → ¬ 3600 < now - c.dt →
      check_session now grant sess s =
        ⟨if (sess : List (String × String)).isEmpty then c.cookies else sess, s, 0⟩) ∧
    (∀ c, s.cacheDoc = some c → 3600 < now - c.dt →
      check_session now grant sess s =
        ⟨cookieUpdate sess grant,
          { s with cacheDoc := some ⟨cookieUpdate sess grant, now⟩ }, 1⟩) ∧
    (∀ c now2 grant2, s.cacheDoc = some c → now - c.dt ≤ 3600 → now2 - c.dt ≤ 3600 →
      (check_session now grant sess s).logins = 0 ∧
      (check_session now2 grant2 (check_session now grant sess s).sess
        (check_session now grant sess s).store).logins = 0) := by
  refine ⟨?_, ?_, ?_, ?_⟩
  · cases hc : s.cacheDoc with
    | none => simp [check_session, hc, loginFn]
    | some c =>
      by_cases hst : 3600 < now - c.dt
      · simp [check_session, hc, hst, loginFn]
      · by_cases he : (sess : List (String × String)).isEmpty <;>
          simp [check_session, hc, hst, he, SessOut.mk.injEq]
  · intro c hc hst
    by_cases he : (sess : List (String × String)).isEmpty <;>
      simp [check_session, hc, hst, he]
  · intro c hc hst
    simp [check_session, hc, hst, loginFn]
  · intro c now2 grant2 hc h1 h2
    have hst : ¬ 3600 < now - c.dt := by omega
    have hst2 : ¬ 3600 < now2 - c.dt := by omega
    by_cases he : (sess : List (String × String)).isEmpty <;>
      simp [check_session, hc, hst, hst2, he]

/-- Witness for C7: a fresh cache is reused with no login; a stale cache
triggers exactly one. -/
theorem session_reuse_iff_witness :
    (check_session 4000 [("g", "1")] []
      ⟨some ⟨[("k", "v")], 1000⟩, some true, some 2, none, []⟩).logins = 0 ∧
    (check_session 9000 [("g", "1")] []
      ⟨some ⟨[("k", "v")], 1000⟩, some true, some 2, none, []⟩).logins = 1 := by
  constructor
  · exact ((session_reuse_iff 4000 [("g", "1")] []
      ⟨some ⟨[("k", "v")], 1000⟩, some true, some 2, none, []⟩).2.2.2
      ⟨[("k", "v")], 1000⟩ 4000 [("g", "1")] rfl (by decide) (by decide)).1
  · have h := (session_reuse_iff 9000 [("g", "1")] []
      ⟨some ⟨[("k", "v")], 1000⟩, some true, some 2, none, []⟩).2.2.1
      ⟨[("k", "v")], 1000⟩ rfl (by decide)
    rw [h]

/-! ## Quota invariant machinery (C1) -/

theorem countGe_append_accept (today now : Nat) (l : List LoadRec) (r : LoadRec)
    (hs : r.status = "accept") (hd : r.dt = now) (hn : today ≤ now) :
    countGe today (l ++ [r]) = countGe today l + 1 := by
  simp [countGe, List.filter_append, hs, hd, hn]

/-- Each selection step either leaves the loop state unchanged or, when the
`new_loads < remaining_loads` guard held, selects exactly one offer, appending
one freshly-dated "accept" document. -/
theorem processEntry_ok_cases (logicOpt : Option Rules) (remaining : Int)
    (now : Nat) (st : SelState) (e : PRow) (st' : SelState)
    (h : processEntry logicOpt remaining now st e = Except.ok st') :
    st' = st ∨
      ((st.newLoads : Int) < remaining ∧ st'.newLoads = st.newLoads + 1 ∧
        ∃ rec, rec.status = "accept" ∧ rec.dt = now ∧
          st'.loads = st.loads ++ [rec]) := by
  unfold processEntry at h
  split at h
  · cases h
  · split at h
    · cases h
    · split at h
      · left; exact (Except.ok.inj h).symm
      · split at h
        · cases h
        · split at h
          · cases h
          · split at h
            · split at h
              · right
                refine ⟨by assumption, ?_, ?_⟩
                · rw [← Except.ok.inj h]; rfl
                · exact ⟨_, rfl, rfl, by rw [← Except.ok.inj h]; rfl⟩
              · left; exact (Except.ok.inj h).symm
            · left; exact (Except.ok.inj h).symm

/-- Invariant of the selection loop: the count of today's accepted documents
grows exactly by the growth of `new_loads`, and `new_loads` never passes
`remaining_loads`. -/
theorem selLoop_counts (logicOpt : Option Rules) (remaining : Int)
    (now today : Nat) (hn : today ≤ now) :
    ∀ (rows : List PRow) (st : SelState),
      countGe today (selLoop logicOpt remaining now rows st).1.loads + st.newLoads =
        countGe today st.loads + (selLoop logicOpt remaining now rows st).1.newLoads ∧
      ((st.newLoads : Int) ≤ remaining →
        ((selLoop logicOpt remaining now rows st).1.newLoads : Int) ≤ remaining) := by
  intro rows
  induction rows with
  | nil => intro st; simp [selLoop]
  | cons e rest ih =>
    intro st
    unfold selLoop
    cases hpe : processEntry logicOpt remaining now st e with
    | error er => simp
    | ok st' =>
      simp only []
      rcases processEntry_ok_cases _ _ _ _ _ _ hpe with
        rfl | ⟨hlt, hnl, rec, hs, hd, hl⟩
      · exact ih st'
      · have ih1 := (ih st').1
        have ih2 := (ih st').2
        rw [hl, countGe_append_accept today now _ rec hs hd hn] at ih1
        constructor
        · omega
        · intro hle
          exact ih2 (by omega)

/-- `check_session` only ever writes the cookie cache document. -/
theorem check_session_store (now : Nat) (grant : List (String × String))
    (sess : SessionState) (s : Store) :
    (check_session now grant sess s).store.loads = s.loads ∧
    (check_session now grant sess s).store.thresholdDoc = s.thresholdDoc ∧
    (check_session now grant sess s).store.statusDoc = s.statusDoc ∧
    (check_session now grant sess s).store.logicDoc = s.logicDoc := by
  unfold check_session loginFn
  cases s.cacheDoc with
  | none => simp
  | some c =>
    by_cases hst : 3600 < now - c.dt
    · simp [hst]
    · by_cases he : (sess : List (String × String)).isEmpty <;> simp [hst, he]

/-- `finishCycle` writes exactly the loop's final loads into the store and
never reports outside-hours. -/
theorem finishCycle_store (sess : SessionState) (s1 : Store) (logins : Nat)
    (stEnd : SelState × Option CErr) :
    (finishCycle sess s1 logins stEnd).store =
      { s1 with loads := stEnd.1.loads } ∧
    (finishCycle sess s1 logins stEnd).res ≠ Except.ok CycleRes.outsideOfHours := by
  unfold finishCycle
  split
  · exact ⟨rfl, by simp⟩
  · split
    · exact ⟨rfl, by simp⟩
    · exact ⟨rfl, by simp⟩

/-- One run of the post-gate body keeps the threshold document and cannot
push the count of today's accepted documents past the threshold. -/
theorem checkLoadsBody_quota (inp : CycleInput) (sess : SessionState) (s : Store)
    (T : Int) (today : Nat)
    (hT : s.thresholdDoc = some T) (ht : inp.today = today) (hn : today ≤ inp.now)
    (hc : (countGe today s.loads : Int) ≤ T) :
    (checkLoadsBody inp sess s).store.thresholdDoc = some T ∧
    ((countGe today (checkLoadsBody inp sess s).store.loads : Int) ≤ T) := by
  obtain ⟨hl1, hl2, -, -⟩ :=
    check_session_store inp.now inp.loginCookies sess s
  unfold checkLoadsBody check_accepted_load_threshold
  rw [ht, hT]
  simp only []
  by_cases hr : T - (countGe today s.loads : Int) ≤ 0
  · rw [if_pos hr]
    exact ⟨hT, hc⟩
  · rw [if_neg hr]
    by_cases hf : !inp.fetchOk
    · simp only [hf, if_true]
      exact ⟨hl2.trans hT, by rw [hl1]; exact hc⟩
    · rw [if_neg (by simpa using hf)]
      by_cases hrows : inp.rows.isEmpty
      · rw [if_pos hrows]
        exact ⟨hl2.trans hT, by rw [hl1]; exact hc⟩
      · rw [if_neg hrows]
        cases hp : parsePhase inp.rows with
        | error er =>
          exact ⟨hl2.trans hT, by rw [hl1]; exact hc⟩
        | ok prows =>
          simp only []
          rw [hl1]
          obtain ⟨hcnt, hbound⟩ := selLoop_counts
            (check_session inp.now inp.loginCookies sess s).store.logicDoc
            (T - (countGe today s.loads : Int)) inp.now today hn
            (sortRows prows) ⟨s.loads, 0, [], []⟩
          generalize hG : selLoop
            (check_session inp.now inp.loginCookies sess s).store.logicDoc
            (T - (countGe today s.loads : Int)) inp.now (sortRows prows)
            ⟨s.loads, 0, [], []⟩ = L at hcnt hbound ⊢
          simp only [] at hcnt hbound
          have hb2 := hbound (by omega)
          have hfin : (countGe today L.1.loads : Int) ≤ T := by omega
          rw [(finishCycle_store _ _ _ _).1]
          exact ⟨hl2.trans hT, hfin⟩

/-- A full `check_loads` invocation keeps the threshold document and the
quota bound, including on early exits and uncaught exceptions. -/
theorem checkLoads_quota (inp : CycleInput) (sess : SessionState) (s : Store)
    (T : Int) (today : Nat)
    (hT : s.thresholdDoc = some T) (ht : inp.today = today) (hn : today ≤ inp.now)
    (hc : (countGe today s.loads : Int) ≤ T) :
    (checkLoads inp sess s).store.thresholdDoc = some T ∧
    ((countGe today (checkLoads inp sess s).store.loads : Int) ≤ T) := by
  unfold checkLoads
  by_cases hh : inp.time.hour < 6 ∨ 18 < inp.time.hour
  · rw [if_pos hh]; exact ⟨hT, hc⟩
  · rw [if_neg hh]
    cases hsd : s.statusDoc with
    | some enabled =>
      cases enabled with
      | true =>
        simp only [if_true]
        exact checkLoadsBody_quota inp sess s T today hT ht hn hc
      | false =>
        simp only [Bool.false_eq_true, if_false]
        exact ⟨hT, hc⟩
    | none =>
      exact checkLoadsBody_quota inp sess { s with statusDoc := some true }
        T today hT ht hn hc

/-- Filtering by a stronger predicate yields at most as many elements. -/
theorem filter_length_mono {α : Type} (p q : α → Bool)
    (himp : ∀ a, p a = true → q a = true) :
    ∀ l : List α, (l.filter p).length ≤ (l.filter q).length := by
  intro l
  induction l with
  | nil => simp
  | cons a t ih =>
    by_cases hq : q a = true
    · by_cases hp : p a = true <;> simp [List.filter_cons, hp, hq] <;> omega
    · have hp : ¬ p a = true := fun h => hq (himp a h)
      simp [List.filter_cons, hp, hq, ih]

/-! ## C1: daily quota invariant -/

/-- C1: across any sequence of poll cycles executed within one UTC calendar
day (single writer), the number of persisted load documents with status
"accept" and an acceptance time within that day never exceeds the daily
threshold: provided the day starts within the threshold, every later store
state stays within it (both for the day-window count the spec speaks about
and for the `dt >= today` count the code queries). -/
theorem quota_never_exceeded (inputs : List CycleInput) (sess : SessionState)
    (s : Store) (T : Int) (today : Nat)
    (hT : s.thresholdDoc = some T)
    (hdays : ∀ i ∈ inputs, i.today = today ∧ today ≤ i.now)
    (hinit : (countGe today s.loads : Int) ≤ T) :
    ((countDay today (schedulerRun inputs sess s).store.loads : Int) ≤ T) ∧
    ((countGe today (schedulerRun inputs sess s).store.loads : Int) ≤ T) := by
  suffices h : (countGe today (schedulerRun inputs sess s).store.loads : Int) ≤ T by
    refine ⟨le_trans ?_ h, h⟩
    have hmono : countDay today (schedulerRun inputs sess s).store.loads ≤
        countGe today (schedulerRun inputs sess s).store.loads := by
      unfold countDay countGe
      refine filter_length_mono _ _ (fun a ha => ?_) _
      simp only [Bool.and_eq_true] at ha ⊢
      exact ha.1
    exact_mod_cast hmono
  induction inputs generalizing sess s with
  | nil => simpa [schedulerRun] using hinit
  | cons i is ih =>
    obtain ⟨hti, hni⟩ := hdays i (List.mem_cons_self i is)
    obtain ⟨hT', hc'⟩ := checkLoads_quota i sess s T today hT hti hni hinit
    unfold schedulerRun
    cases hres : (checkLoads i sess s).res with
    | error er => simp only [hres]; exact hc'
    | ok r =>
      simp only [hres]
      exact ih (checkLoads i sess s).sess (checkLoads i sess s).store hT'
        (fun j hj => hdays j (List.mem_cons_of_mem i hj)) hc'

/-- Witness for C1 at a concrete one-cycle run against threshold 2. -/
theorem quota_never_exceeded_witness :
    demoStore.thresholdDoc = some 2 ∧
    (∀ i ∈ [demoInput [demoRow "1" "500 lbs" "a500", demoRow "2" "100 lbs" "a100",
        demoRow "3" "300 lbs" "a300"]], i.today = 0 ∧ 0 ≤ i.now) ∧
    ((countDay 0 (schedulerRun [demoInput [demoRow "1" "500 lbs" "a500",
        demoRow "2" "100 lbs" "a100", demoRow "3" "300 lbs" "a300"]] []
        demoStore).store.loads : Int) ≤ 2) :=
  ⟨rfl, by decide,
    (quota_never_exceeded [demoInput [demoRow "1" "500 lbs" "a500",
      demoRow "2" "100 lbs" "a100", demoRow "3" "300 lbs" "a300"]] [] demoStore
      2 0 rfl (by decide) (by decide)).1⟩

/-! ## C4: operating-hours gate -/

/-- Once past the hours gate, the body never reports the outside-hours
result. -/
theorem checkLoadsBody_not_outside (inp : CycleInput) (sess : SessionState)
    (s : Store) :
    (checkLoadsBody inp sess s).res ≠ Except.ok CycleRes.outsideOfHours := by
  unfold checkLoadsBody
  intro hres
  repeat' split at hres
  all_goals
    first
      | exact (finishCycle_store _ _ _ _).2 hres
      | simp at hres

/-- C4 counterexample: at 18:30 Eastern — outside the spec's 06:00–18:00
window — the cycle is not skipped as outside hours: with a disabled status
document it proceeds to the enablement gate and returns the disabled result
instead.  The claimed iff fails at this input. -/
theorem hours_gate_counterexample :
    outsideWindowSpec ⟨18, 30⟩ = true ∧
    (checkLoads { demoInput [] with time := ⟨18, 30⟩ } []
        { demoStore with statusDoc := some false }).res =
      Except.ok CycleRes.disabled := by
  exact ⟨by decide, by decide⟩

/-- C4 (amended): the cycle returns the outside-hours result iff the Eastern
wall-clock HOUR is below 6 or above 18 — i.e. the effective window is
06:00–18:59, one hour longer than the spec's 06:00–18:00 — and on that path
it returns immediately with the store, session, and all request counters
untouched. -/
theorem hours_gate_amended (inp : CycleInput) (sess : SessionState) (s : Store) :
    ((checkLoads inp sess s).res = Except.ok CycleRes.outsideOfHours ↔
      (inp.time.hour < 6 ∨ 18 < inp.time.hour)) ∧
    ((inp.time.hour < 6 ∨ 18 < inp.time.hour) →
      checkLoads inp sess s =
        ⟨sess, s, 0, 0, 0, 0, [], Except.ok CycleRes.outsideOfHours⟩) := by
  constructor
  · constructor
    · intro hres
      by_contra hh
      unfold checkLoads at hres
      rw [if_neg hh] at hres
      cases hsd : s.statusDoc with
      | some enabled =>
        rw [hsd] at hres
        cases enabled with
        | true =>
          simp only [if_true] at hres
          exact checkLoadsBody_not_outside inp sess s hres
        | false => simp at hres
      | none =>
        rw [hsd] at hres
        exact checkLoadsBody_not_outside inp sess
          { s with statusDoc := some true } hres
    · intro hh
      unfold checkLoads
      rw [if_pos hh]
  · intro hh
    unfold checkLoads
    rw [if_pos hh]

/-- Witness for C4 (amended) at 03:00 Eastern. -/
theorem hours_gate_amended_witness :
    checkLoads { demoInput [] with time := ⟨3, 0⟩ } [] demoStore =
      ⟨[], demoStore, 0, 0, 0, 0, [], Except.ok CycleRes.outsideOfHours⟩ :=
  (hours_gate_amended { demoInput [] with time := ⟨3, 0⟩ } [] demoStore).2
    (Or.inl (by decide))

/-! ## C5: weight parsing -/

/-- A row whose weight cell fails to parse aborts the whole weight pass. -/
theorem parsePhase_error_of_mem (r : List String) (er : CErr) :
    ∀ rows : List (List String), r ∈ rows → rowWeight r = Except.error er →
      ∃ er2, parsePhase rows = Except.error er2 := by
  intro rows
  induction rows with
  | nil => intro hm; cases hm
  | cons a t ih =>
    intro hm hw
    unfold parsePhase
    cases hra : rowWeight a with
    | error e => exact ⟨e, rfl⟩
    | ok w =>
      rcases List.mem_cons.mp hm with rfl | hm2
      · rw [hra] at hw; cases hw
      · obtain ⟨e2, he2⟩ := ih hm2 hw
        rw [he2]
        exact ⟨e2, rfl⟩

/-- A cycle that passes all gates and then fails the weight pass raises that
exception and inserts nothing. -/
theorem checkLoads_parse_error (inp : CycleInput) (sess : SessionState)
    (s : Store) (T : Int) (er : CErr)
    (hh : ¬ (inp.time.hour < 6 ∨ 18 < inp.time.hour))
    (hsd : s.statusDoc = some true)
    (hT : s.thresholdDoc = some T)
    (hq : ¬ T - (countGe inp.today s.loads : Int) ≤ 0)
    (hf : inp.fetchOk = true)
    (hne : inp.rows.isEmpty = false)
    (hp : parsePhase inp.rows = Except.error er) :
    (checkLoads inp sess s).res = Except.error er ∧
    (checkLoads inp sess s).store.loads = s.loads := by
  obtain ⟨hl1, -, -, -⟩ := check_session_store inp.now inp.loginCookies sess s
  unfold checkLoads
  rw [if_neg hh, hsd]
  simp only [if_true]
  unfold checkLoadsBody check_accepted_load_threshold
  rw [hT]
  simp only []
  rw [if_neg hq, hf]
  simp only [Bool.not_true, Bool.false_eq_true, if_false, hne]
  rw [hp]
  exact ⟨rfl, hl1⟩

/-- C5 counterexample: the source pattern is `(\d+) lbs` (one literal space),
not the spec's `(\d+)\s*lbs`.  On the cell text "4200lbs" the spec's pattern
matches (weight 4200), so per the claim the row does not lack the pattern —
yet the code's search returns no match and the cycle dies with an uncaught
`AttributeError`. -/
theorem weight_pattern_counterexample :
    weightSearchSpec "4200lbs" = some 4200 ∧
    weightSearch "4200lbs" = none ∧
    (checkLoads (demoInput [demoRow "1" "4200lbs" "a1"]) [] demoStore).res =
      Except.error CErr.attrErr := by
  exact ⟨by decide, by decide, by decide⟩

/-- C5 (amended): the weight field is parsed with the source pattern
`(\d+) lbs` — one literal space; "Weight: 4200 lbs extra" yields 4200, and a
retained row whose weight cell lacks THAT pattern makes the whole cycle fail
with an uncaught exception before any offer is selected (no silent skip). -/
theorem weight_parse_amended (inp : CycleInput) (sess : SessionState)
    (s : Store) (T : Int) (r : List String) (er : CErr)
    (hh : ¬ (inp.time.hour < 6 ∨ 18 < inp.time.hour))
    (hsd : s.statusDoc = some true)
    (hT : s.thresholdDoc = some T)
    (hq : ¬ T - (countGe inp.today s.loads : Int) ≤ 0)
    (hf : inp.fetchOk = true)
    (hne : inp.rows.isEmpty = false)
    (hm : r ∈ inp.rows)
    (hw : rowWeight r = Except.error er) :
    weightSearch "Weight: 4200 lbs extra" = some 4200 ∧
    ∃ er2, (checkLoads inp sess s).res = Except.error er2 ∧
      (checkLoads inp sess s).store.loads = s.loads := by
  obtain ⟨er2, hp⟩ := parsePhase_error_of_mem r er inp.rows hm hw
  obtain ⟨h1, h2⟩ := checkLoads_parse_error inp sess s T er2 hh hsd hT hq hf hne hp
  exact ⟨by decide, er2, h1, h2⟩

/-- Witness for C5 (amended) at a concrete row lacking the pattern. -/
theorem weight_parse_amended_witness :
    weightSearch "Weight: 4200 lbs extra" = some 4200 ∧
    ∃ er2, (checkLoads (demoInput [demoRow "1" "nope" "a1"]) [] demoStore).res =
        Except.error er2 ∧
      (checkLoads (demoInput [demoRow "1" "nope" "a1"]) []
        demoStore).store.loads = demoStore.loads :=
  weight_parse_amended (demoInput [demoRow "1" "nope" "a1"]) [] demoStore 2
    (demoRow "1" "nope" "a1") CErr.attrErr (by decide) rfl rfl (by decide) rfl
    (by decide) (by decide) (by decide)

/-! ## C6: scheduler loop and uncaught exceptions -/

/-- C6 counterexample: the `while True` loop has no exception handler.  With
two scheduled ticks whose first cycle raises an uncaught `AttributeError`
(weight cell without the pattern), only one cycle is ever started — the
process dies and the second tick never runs — even though the second input
on its own would complete fine. -/
theorem scheduler_crash_counterexample :
    (schedulerRun [demoInput [demoRow "1" "nope" "a1"], demoInput []] []
      demoStore).attempted = 1 ∧
    (schedulerRun [demoInput [demoRow "1" "nope" "a1"], demoInput []] []
      demoStore).err = some CErr.attrErr ∧
    (checkLoads (demoInput []) [] demoStore).res =
      Except.ok CycleRes.finished := by
  exact ⟨by decide, by decide, by decide⟩

/-- C6 (amended): errors surfaced as non-success responses or early returns
leave the loop running — a cycle that returns (any `Except.ok` result, which
includes the handled fetch-failure path) is followed by the next scheduled
tick — but a raised exception propagates out of the unguarded `while True`
loop: the run stops after that cycle with the exception as the process's
fate and no later tick is attempted. -/
theorem scheduler_loop_amended (i : CycleInput) (is : List CycleInput)
    (sess : SessionState) (s : Store) :
    (∀ er, (checkLoads i sess s).res = Except.error er →
      schedulerRun (i :: is) sess s =
        ⟨(checkLoads i sess s).sess, (checkLoads i sess s).store, 1, 0,
          some er⟩) ∧
    (∀ r, (checkLoads i sess s).res = Except.ok r →
      (schedulerRun (i :: is) sess s).attempted =
        (schedulerRun is (checkLoads i sess s).sess
          (checkLoads i sess s).store).attempted + 1 ∧
      (schedulerRun (i :: is) sess s).err =
        (schedulerRun is (checkLoads i sess s).sess
          (checkLoads i sess s).store).err) := by
  constructor
  · intro er hres
    simp only [schedulerRun, hres]
  · intro r hres
    simp [schedulerRun, hres]

/-- Witness for C6 (amended): both branches at concrete inputs. -/
theorem scheduler_loop_amended_witness :
    schedulerRun [demoInput [demoRow "1" "nope" "a1"]] [] demoStore =
      ⟨(checkLoads (demoInput [demoRow "1" "nope" "a1"]) [] demoStore).sess,
        (checkLoads (demoInput [demoRow "1" "nope" "a1"]) [] demoStore).store,
        1, 0, some CErr.attrErr⟩ ∧
    (schedulerRun [demoInput []] [] demoStore).attempted =
      (schedulerRun [] (checkLoads (demoInput []) [] demoStore).sess
        (checkLoads (demoInput []) [] demoStore).store).attempted + 1 :=
  ⟨(scheduler_loop_amended (demoInput [demoRow "1" "nope" "a1"]) [] []
      demoStore).1 CErr.attrErr (by decide),
    ((scheduler_loop_amended (demoInput []) [] [] demoStore).2
      CycleRes.finished (by decide)).1⟩

/-! ## C8: settings initialization -/

/-- The body dies with a `TypeError` when the threshold document is absent. -/
theorem checkLoadsBody_no_threshold (inp : CycleInput) (sess : SessionState)
    (s : Store) (hT : s.thresholdDoc = none) :
    checkLoadsBody inp sess s =
      ⟨sess, s, 0, 0, 0, 0, [], Except.error CErr.typeErr⟩ := by
  unfold checkLoadsBody check_accepted_load_threshold
  rw [hT]

/-- C8 counterexample: with both settings documents absent, the cycle does
not "initialize and proceed": it initializes only the enabled flag, then the
quota computation subscripts the missing threshold document and the cycle
dies with an uncaught `TypeError`. -/
theorem settings_init_counterexample :
    (checkLoads (demoInput []) []
        { demoStore with statusDoc := none, thresholdDoc := none }).res =
      Except.error CErr.typeErr ∧
    (checkLoads (demoInput []) []
        { demoStore with statusDoc := none, thresholdDoc := none
          }).store.statusDoc = some true := by
  exact ⟨by decide, by decide⟩

/-- C8 (amended): of the two persisted settings, only the enabled flag is
initialized on absence — a cycle inside the hours window with no status
document writes `enabled = true` and proceeds into the body; the daily
threshold is never defaulted: if its document is absent the cycle raises an
uncaught `TypeError` instead of proceeding. -/
theorem settings_init_amended (inp : CycleInput) (sess : SessionState)
    (s : Store) (hh : ¬ (inp.time.hour < 6 ∨ 18 < inp.time.hour)) :
    (s.statusDoc = none →
      checkLoads inp sess s =
        checkLoadsBody inp sess { s with statusDoc := some true }) ∧
    ((s.statusDoc = none ∨ s.statusDoc = some true) → s.thresholdDoc = none →
      (checkLoads inp sess s).res = Except.error CErr.typeErr) := by
  constructor
  · intro hsd
    unfold checkLoads
    rw [if_neg hh, hsd]
  · intro hsd hT
    unfold checkLoads
    rw [if_neg hh]
    rcases hsd with hsd | hsd <;> rw [hsd]
    · rw [checkLoadsBody_no_threshold inp sess { s with statusDoc := some true } hT]
    · simp only [if_true]
      rw [checkLoadsBody_no_threshold inp sess s hT]

/-- Witness for C8 (amended) at concrete stores. -/
theorem settings_init_amended_witness :
    checkLoads (demoInput []) [] { demoStore with statusDoc := none } =
      checkLoadsBody (demoInput []) [] demoStore ∧
    (checkLoads (demoInput []) []
        { demoStore with thresholdDoc := none }).res =
      Except.error CErr.typeErr :=
  ⟨(settings_init_amended (demoInput []) []
      { demoStore with statusDoc := none } (by decide)).1 rfl,
    (settings_init_amended (demoInput []) []
      { demoStore with thresholdDoc := none } (by decide)).2 (Or.inr rfl) rfl⟩

/-! ## C9: ascending-weight evaluation order -/

theorem mem_insertRow (a x : PRow) :
    ∀ l, x ∈ insertRow a l ↔ x = a ∨ x ∈ l := by
  intro l
  induction l with
  | nil => simp [insertRow]
  | cons b t ih =>
    unfold insertRow
    by_cases hab : a.weight ≤ b.weight
    · rw [if_pos hab]
      simp [List.mem_cons]
    · rw [if_neg hab]
      simp only [List.mem_cons, ih]
      tauto

theorem sortedByWeight_insertRow (a : PRow) :
    ∀ l, sortedByWeight l → sortedByWeight (insertRow a l) := by
  intro l
  induction l with
  | nil => intro; simp [insertRow, sortedByWeight]
  | cons b t ih =>
    intro hs
    rw [sortedByWeight, List.pairwise_cons] at hs
    obtain ⟨hb, ht⟩ := hs
    unfold insertRow
    by_cases hab : a.weight ≤ b.weight
    · rw [if_pos hab]
      rw [sortedByWeight, List.pairwise_cons]
      refine ⟨?_, ?_⟩
      · intro x hx
        rcases List.mem_cons.mp hx with rfl | hx2
        · exact hab
        · exact le_trans hab (hb x hx2)
      · rw [List.pairwise_cons]
        exact ⟨hb, ht⟩
    · rw [if_neg hab]
      rw [sortedByWeight, List.pairwise_cons]
      refine ⟨?_, ih ht⟩
      intro x hx
      rcases (mem_insertRow a x t).mp hx with rfl | hx2
      · omega
      · exact hb x hx2

theorem sortRows_sorted : ∀ l, sortedByWeight (sortRows l) := by
  intro l
  induction l with
  | nil => simp [sortRows, sortedByWeight]
  | cons a t ih => exact sortedByWeight_insertRow a (sortRows t) ih

/-- C9: the pipeline evaluates extracted offers in ascending order of parsed
weight: the sort the cycle applies always yields a weight-sorted list, and on
the concrete unsorted offers with weights [500, 100, 300] the parsed rows are
evaluated — and hence selected, persisted and submitted — in the order
100, 300, 500. -/
theorem ascending_weight_order :
    (∀ prows : List PRow, sortedByWeight (sortRows prows)) ∧
    Except.map (fun ps => (sortRows ps).map PRow.weight)
      (parsePhase [demoRow "1" "500 lbs" "a500", demoRow "2" "100 lbs" "a100",
        demoRow "3" "300 lbs" "a300"]) = Except.ok [100, 300, 500] ∧
    ((checkLoads (demoInput [demoRow "1" "500 lbs" "a500",
        demoRow "2" "100 lbs" "a100", demoRow "3" "300 lbs" "a300"]) []
        { demoStore with thresholdDoc := some 5 }).store.loads.map
      (fun l => (l.dsm, l.weight))) = [(2, 100), (3, 300), (1, 500)] ∧
    (checkLoads (demoInput [demoRow "1" "500 lbs" "a500",
        demoRow "2" "100 lbs" "a100", demoRow "3" "300 lbs" "a300"]) []
        { demoStore with thresholdDoc := some 5 }).submittedIds =
      ["a100", "a300", "a500"] := by
  exact ⟨sortRows_sorted, by decide, by decide, by decide⟩

/-! ## C10: row-shape assumptions of the selection phase -/

theorem listIdx_error_of_len (l : List String) (i : Nat) (h : l.length ≤ i) :
    listIdx l i = Except.error CErr.indexErr := by
  unfold listIdx
  rw [List.getElem?_eq_none h]

/-- If the field reads all succeed, the row had at least nine cells. -/
theorem readFields_ok_length (e : PRow) (f : Fields)
    (h : readFields e = Except.ok f) : 9 ≤ e.cells.length := by
  by_contra hlen
  push_neg at hlen
  unfold readFields at h
  repeat' split at h
  all_goals try exact Except.noConfusion h
  rename_i a8 h8
  rw [listIdx_error_of_len e.cells 8 (by omega)] at h8
  cases h8

/-- A row with fewer than nine cells cannot survive the field reads: some
access raises before the rule check is reached. -/
theorem readFields_error_of_short (e : PRow) (hlen : e.cells.length < 9) :
    ∃ er, readFields e = Except.error er := by
  cases hrf : readFields e with
  | error er => exact ⟨er, rfl⟩
  | ok f => exact absurd (readFields_ok_length e f hrf) (by omega)

/-- C10 counterexample: a retained row that violates the claimed fixed
layout — only six cells, no " P:" delimiter, no ninth action cell — does NOT
make the cycle raise: its id cell is already persisted, so the selection
loop skips it after reading only cells 0 and 5, and the cycle completes
normally with the store unchanged. -/
theorem row_shape_counterexample :
    (["7", "x", "y", "z", "c", "10 lbs"] : List String).length < 9 ∧
    (checkLoads (demoInput [["7", "x", "y", "z", "c", "10 lbs"]]) []
        { demoStore with loads := [demoLoadRec] }).res =
      Except.ok CycleRes.finished ∧
    (checkLoads (demoInput [["7", "x", "y", "z", "c", "10 lbs"]]) []
        { demoStore with loads := [demoLoadRec] }).store.loads =
      [demoLoadRec] := by
  exact ⟨by decide, by decide, by decide⟩

/-- C10 (amended): the selection phase assumes the fixed cell layout only
for rows it fully evaluates.  A non-numeric id cell raises `ValueError` at
that row's turn; a not-yet-persisted row with fewer than nine cells raises
at that row's turn; and — as the concrete run shows — such an exception
strikes during the ascending-weight scan, after lighter offers have already
been selected and persisted, not before any selection.  Rows whose id is
already persisted never reach the remaining cell reads. -/
theorem row_shape_amended :
    (∀ (logicOpt : Option Rules) (remaining : Int) (now : Nat) (st : SelState)
        (e : PRow) (c0 : String),
      listIdx e.cells 0 = Except.ok c0 → pyIntNat c0 = none →
      processEntry logicOpt remaining now st e = Except.error CErr.valueErr) ∧
    (∀ (logicOpt : Option Rules) (remaining : Int) (now : Nat) (st : SelState)
        (e : PRow) (c0 : String) (dsm : Nat),
      listIdx e.cells 0 = Except.ok c0 → pyIntNat c0 = some dsm →
      hasDsm st.loads dsm = false → e.cells.length < 9 →
      ∃ er, processEntry logicOpt remaining now st e = Except.error er) ∧
    (checkLoads (demoInput [demoRow "xx" "200 lbs" "a2",
        demoRow "1" "100 lbs" "a1"]) [] demoStore).res =
      Except.error CErr.valueErr ∧
    (checkLoads (demoInput [demoRow "xx" "200 lbs" "a2",
        demoRow "1" "100 lbs" "a1"]) [] demoStore).store.loads.map
      (fun l => l.dsm) = [1] := by
  refine ⟨?_, ?_, by decide, by decide⟩
  · intro logicOpt remaining now st e c0 h0 hp
    simp only [processEntry, h0, hp]
  · intro logicOpt remaining now st e c0 dsm h0 hp hd hlen
    obtain ⟨er, her⟩ := readFields_error_of_short e hlen
    exact ⟨er, by
      simp only [processEntry, h0, hp, hd, her, Bool.false_eq_true, if_false]⟩

/-- Witness for C10 (amended) at concrete malformed rows. -/
theorem row_shape_amended_witness :
    processEntry (some demoRules) 5 99 ⟨[], 0, [], []⟩
      ⟨demoRow "xx" "200 lbs" "a2", 200⟩ = Except.error CErr.valueErr ∧
    ∃ er, processEntry (some demoRules) 5 99 ⟨[], 0, [], []⟩
      ⟨["7", "x", "y", "z", "c", "10 lbs"], 10⟩ = Except.error er :=
  ⟨row_shape_amended.1 (some demoRules) 5 99 ⟨[], 0, [], []⟩
      ⟨demoRow "xx" "200 lbs" "a2", 200⟩ "xx" (by decide) (by decide),
    row_shape_amended.2.1 (some demoRules) 5 99 ⟨[], 0, [], []⟩
      ⟨["7", "x", "y", "z", "c", "10 lbs"], 10⟩ "7" 7 (by decide) (by decide)
      (by decide) (by decide)⟩
